import Mathlib

/-!
Verification of the analytics core of the energy-dashboard repository.

The repository implements the same dashboard three times (two React variants
and one Angular variant); the analytics functions are small pure JavaScript /
TypeScript functions over in-memory record collections.  This file gives a
shallow embedding of those functions and proves or refutes the frozen claims
about them.

Modelling conventions:
* JavaScript numbers are modelled by `JF`: either a rational (`JF.num`) or
  `JF.nan`.  Infinities are not modelled (the record fields are finite decimal
  strings and no claim exercises float overflow); division by zero, which in
  JavaScript produces an infinity, is mapped to `JF.nan` and is unreachable in
  every guarded call site embedded here.
* `parseFloat` is modelled on plain decimal literals: an optional sign, an
  integer part and an optional fraction part; any trailing garbage after the
  numeric prefix is ignored exactly as in JavaScript, and a string with no
  numeric prefix parses to `JF.nan`.  Leading whitespace and exponent suffixes
  are not modelled (no wire value in the claims uses them).
* Wire dates are strings; the dashboard normalizer `parseApiDate` takes the
  part before the first `'T'` and builds a local-noon `Date`.  We model the
  result as the calendar date itself (`CalDate`), linearized to a millisecond
  key for comparisons; local noon is `43200000` ms into the day.
* JavaScript `Array.prototype.sort` is stable (ES2019); a stable sort by a
  key is unique, so it is modelled by a stable insertion sort by the key.
-/

namespace EnergyDash

/-- A JavaScript number: a finite rational or NaN. -/
inductive JF where
  | nan : JF
  | num : ℚ → JF
deriving DecidableEq, Repr

/-- The rational carried by a `JF` (0 for NaN); only meaningful when the
value is known not to be NaN. -/
def JF.toQ : JF → ℚ
  | JF.nan => 0
  | JF.num q => q

/-- JavaScript `+` on numbers: NaN propagates. -/
def jsAdd : JF → JF → JF
  | JF.num a, JF.num b => JF.num (a + b)
  | _, _ => JF.nan

/-- JavaScript `-` on numbers: NaN propagates. -/
def jsSub : JF → JF → JF
  | JF.num a, JF.num b => JF.num (a - b)
  | _, _ => JF.nan

/-- JavaScript `*` on numbers: NaN propagates. -/
def jsMul : JF → JF → JF
  | JF.num a, JF.num b => JF.num (a * b)
  | _, _ => JF.nan

/-- JavaScript `/` on numbers: NaN propagates.  Division by zero yields an
infinity in JavaScript, which is outside this model and mapped to NaN; every
embedded call site guards the denominator, so the case is unreachable. -/
def jsDiv : JF → JF → JF
  | JF.num a, JF.num b => if b = 0 then JF.nan else JF.num (a / b)
  | _, _ => JF.nan

/-- JavaScript `>` comparison: any comparison involving NaN is false. -/
def jsGtB : JF → JF → Bool
  | JF.num a, JF.num b => decide (b < a)
  | _, _ => false

/-- `Math.max` on two values: NaN propagates. -/
def jsMax : JF → JF → JF
  | JF.num a, JF.num b => JF.num (max a b)
  | _, _ => JF.nan

/-- `Math.min` on two values: NaN propagates. -/
def jsMin : JF → JF → JF
  | JF.num a, JF.num b => JF.num (min a b)
  | _, _ => JF.nan

/-- `Math.round`: round half toward positive infinity, as in JavaScript
(`Math.round (-0.5) = 0`); Mathlib's `round` on `ℚ` is `⌊x + 1/2⌋`, the same
convention.  NaN propagates. -/
def jsRound : JF → JF
  | JF.nan => JF.nan
  | JF.num q => JF.num ((round q : ℤ) : ℚ)

/-- `toFixed(1)` modelled numerically: round to one decimal place with the
same tie convention as `Math.round` (ties toward positive infinity). -/
def round1 (q : ℚ) : ℚ := ((round (q * 10) : ℤ) : ℚ) / 10

/-- `toFixed(1)` on a JavaScript number; `NaN.toFixed(1)` is the string
"NaN", modelled as `JF.nan`. -/
def jsToFixed1 : JF → JF
  | JF.nan => JF.nan
  | JF.num q => JF.num (round1 q)

/-- Numeric value of a list of decimal digit characters. -/
def digitsVal (cs : List Char) : ℕ :=
  cs.foldl (fun a c => a * 10 + (c.toNat - 48)) 0

/-- Model of JavaScript `parseFloat` on plain decimal literals: optional
sign, digits, optional `.` and fraction digits; the longest numeric prefix is
used and trailing garbage is ignored; no numeric prefix gives NaN. -/
def jsParseFloat (s : String) : JF :=
  let cs := s.data
  let sign : ℚ := if cs.head? = some '-' then -1 else 1
  let cs1 := if cs.head? = some '-' ∨ cs.head? = some '+' then cs.tail else cs
  let intPart := cs1.takeWhile Char.isDigit
  let rest := cs1.dropWhile Char.isDigit
  let fracPart := if rest.head? = some '.' then rest.tail.takeWhile Char.isDigit else []
  if intPart.isEmpty ∧ fracPart.isEmpty then JF.nan
  else JF.num (sign * ((digitsVal intPart : ℚ) + (digitsVal fracPart : ℚ) / (10 : ℚ) ^ fracPart.length))

/-- JavaScript `a || b` on two optional string fields: `a` unless it is
absent (`undefined`) or the empty string (falsy). -/
def jsOr (a b : Option String) : Option String :=
  match a with
  | none => b
  | some s => if s = "" then b else some s

/-- `parseFloat(v || 0)`: an absent or empty field is replaced by the number
0 before parsing, so it contributes `0`; otherwise the string is parsed. -/
def jsNumField (v : Option String) : JF :=
  match v with
  | none => JF.num 0
  | some s => if s = "" then JF.num 0 else jsParseFloat s

/-- A monthly or daily energy record as fetched from the API. -/
structure EnergyRecord where
  from_date : String
  total_consumption : Option String
  total_charges : Option String
  interval_length : Option ℤ
deriving DecidableEq, Repr

/-- A 15-minute (hourly-detail) record; the API sometimes uses the field
names `consumption` / `charges` instead of the `total_` ones. -/
structure HourlyRecord where
  from_date : Option String
  total_consumption : Option String
  consumption : Option String
  total_charges : Option String
  charges : Option String
deriving DecidableEq, Repr

/-- A calendar date as extracted from the `YYYY-MM-DD` wire prefix. -/
structure CalDate where
  year : ℕ
  month : ℕ
  day : ℕ
deriving DecidableEq, Repr

/-- Linearization of a calendar date to a day index, strictly monotone with
respect to chronological order for valid dates (`month ≤ 12`, `day ≤ 31`). -/
def CalDate.key (d : CalDate) : ℕ := d.year * 372 + d.month * 31 + d.day

/-- Milliseconds in a day. -/
def dayMs : ℕ := 86400000

/-- The local-noon timestamp `new Date(datePart + "T12:00:00")` assigns to a
calendar date, in milliseconds on the linearized day key. -/
def noonMs (d : CalDate) : ℕ := d.key * dayMs + 43200000

/-- Start of day (00:00:00.000) of a calendar date, in milliseconds. -/
def startOfDayMs (d : CalDate) : ℕ := d.key * dayMs

/-- End of day (23:59:59.999) of a calendar date, in milliseconds. -/
def endOfDayMs (d : CalDate) : ℕ := d.key * dayMs + 86399999

/-- The part of a wire date string before the first `'T'`:
`dateString.split('T')[0]`. -/
def splitT (s : String) : String :=
  String.mk (s.data.takeWhile (fun c => c != 'T'))

/-- Parse a strict `YYYY-MM-DD` string into a calendar date; anything else is
an invalid date (`new Date` on it yields `Invalid Date`).  The day bound 31
approximates the engine's per-month bound. -/
def parseYMD (s : String) : Option CalDate :=
  match s.data with
  | [y1, y2, y3, y4, s1, m1, m2, s2, d1, d2] =>
    if y1.isDigit ∧ y2.isDigit ∧ y3.isDigit ∧ y4.isDigit ∧ s1 = '-' ∧
       m1.isDigit ∧ m2.isDigit ∧ s2 = '-' ∧ d1.isDigit ∧ d2.isDigit then
      let y := digitsVal [y1, y2, y3, y4]
      let mo := digitsVal [m1, m2]
      let d := digitsVal [d1, d2]
      if 1 ≤ mo ∧ mo ≤ 12 ∧ 1 ≤ d ∧ d ≤ 31 then some ⟨y, mo, d⟩ else none
    else none
  | _ => none

/-- The dashboard date normalizer (App.js and data.service.ts `parseApiDate`):
take the part before `'T'` and build a date pinned to local noon; the result
is a pure calendar date, so it is the same in every viewer timezone. -/
def parseApiDate (s : String) : Option CalDate := parseYMD (splitT s)

/-! ### Aggregator (App.js lines 250-293, dashboard.component.ts 280-314) -/

/-- `parseFloat(item.total_consumption || 0)` for a monthly/daily record. -/
def consumpVal (r : EnergyRecord) : JF := jsNumField r.total_consumption

/-- `parseFloat(item.total_charges || 0)` for a monthly/daily record. -/
def chargesVal (r : EnergyRecord) : JF := jsNumField r.total_charges

/-- `monthlyData.reduce((sum, item) => sum + parseFloat(item?.total_consumption || 0), 0)`. -/
def ytdConsumption (l : List EnergyRecord) : JF :=
  l.foldl (fun acc item => jsAdd acc (consumpVal item)) (JF.num 0)

/-- `monthlyData.reduce((sum, item) => sum + parseFloat(item?.total_charges || 0), 0)`. -/
def ytdCharges (l : List EnergyRecord) : JF :=
  l.foldl (fun acc item => jsAdd acc (chargesVal item)) (JF.num 0)

/-- `parseFloat(item.total_consumption || item.consumption || 0)` for an
hourly record. -/
def hVal (r : HourlyRecord) : JF := jsNumField (jsOr r.total_consumption r.consumption)

/-- `parseFloat(item.total_charges || item.charges || 0)` for an hourly record. -/
def hCharges (r : HourlyRecord) : JF := jsNumField (jsOr r.total_charges r.charges)

/-- `hourlyData.reduce((sum, item) => sum + parseFloat(item.total_consumption || item.consumption || 0), 0)`. -/
def totalHourlyKwh (l : List HourlyRecord) : JF :=
  l.foldl (fun acc item => jsAdd acc (hVal item)) (JF.num 0)

/-- `hourlyData.reduce((sum, item) => sum + parseFloat(item.total_charges || item.charges || 0), 0)`. -/
def totalHourlyCharges (l : List HourlyRecord) : JF :=
  l.foldl (fun acc item => jsAdd acc (hCharges item)) (JF.num 0)

/-- `hourlyData.length > 0 ? totalHourlyKwh / hourlyData.length : 0`
(the per-interval average of the hourly detail page). -/
def averageHourlyUsage (l : List HourlyRecord) : JF :=
  if 0 < l.length then jsDiv (totalHourlyKwh l) (JF.num l.length) else JF.num 0

/-- Sort key used by the summary-metric sort: `parseApiDate(from_date).getTime()`
(the noon timestamp).  An unparseable date gives NaN in JavaScript, whose
comparator result engines coerce like 0; modelled as key 0 here. -/
def dKeyMs (r : EnergyRecord) : ℕ :=
  match parseApiDate r.from_date with
  | some d => noonMs d
  | none => 0

/-- Stable insertion of a record into a key-sorted list (the unique stable
sort by a key agrees with JavaScript's stable `Array.prototype.sort`). -/
def insertSorted (key : EnergyRecord → ℕ) (x : EnergyRecord) :
    List EnergyRecord → List EnergyRecord
  | [] => [x]
  | y :: ys => if key x ≤ key y then x :: y :: ys else y :: insertSorted key x ys

/-- Stable sort of records ascending by a numeric key. -/
def sortByKey (key : EnergyRecord → ℕ) : List EnergyRecord → List EnergyRecord
  | [] => []
  | x :: xs => insertSorted key x (sortByKey key xs)

/-- `[...monthlyData].filter(item => item && item.from_date).sort((a, b) => parseApiDate(a.from_date) - parseApiDate(b.from_date))`. -/
def dateSortedMonthly (l : List EnergyRecord) : List EnergyRecord :=
  sortByKey dKeyMs (l.filter (fun r => r.from_date ≠ ""))

/-- The month-over-month summary metric (`monthlyChange`): sort by normalized
date ascending, take the last two entries, require the previous entry's parsed
consumption to be strictly positive, and return the percentage change rounded
to one decimal (`toFixed(1)`); otherwise `null`. -/
def monthlyChange (l : List EnergyRecord) : Option JF :=
  let s := dateSortedMonthly l
  if s.length < 2 then none
  else
    match s.get? (s.length - 1), s.get? (s.length - 2) with
    | some lastE, some prevE =>
      if jsGtB (consumpVal prevE) (JF.num 0) then
        some (jsToFixed1 (jsMul (jsDiv (jsSub (consumpVal lastE) (consumpVal prevE))
          (consumpVal prevE)) (JF.num 100)))
      else none
    | _, _ => none

/-! ### Filter / sort / paginate engine -/

/-- The Angular date-range predicate (dashboard.component.ts 149-157): the
record's noon timestamp compared against start-of-day of the range start and
end-of-day of the range end; an unparseable date compares false. -/
def inRangeAngular (rs re : CalDate) (r : EnergyRecord) : Bool :=
  match parseApiDate r.from_date with
  | none => false
  | some d => decide (startOfDayMs rs ≤ noonMs d) && decide (noonMs d ≤ endOfDayMs re)

/-- Angular `filteredDailyData`: filter by the day-granularity range, then
`reverse()`. -/
def filteredDailyData (l : List EnergyRecord) (rs re : CalDate) : List EnergyRecord :=
  (l.filter (inRangeAngular rs re)).reverse

/-- The React date-range predicate (App.js 178-181): the record's noon
timestamp compared against the raw `dateRange.start` / `dateRange.end`
timestamps, with no start-of-day / end-of-day adjustment. -/
def inRangeReact (startTs endTs : ℕ) (r : EnergyRecord) : Bool :=
  match parseApiDate r.from_date with
  | none => false
  | some d => decide (startTs ≤ noonMs d) && decide (noonMs d ≤ endTs)

/-- React `filteredDailyData`: filter by the raw timestamp range, then
`reverse()`. -/
def filteredDailyDataReact (l : List EnergyRecord) (startTs endTs : ℕ) : List EnergyRecord :=
  (l.filter (inRangeReact startTs endTs)).reverse

/-- Page slice `sortedMonthly.slice((page-1)*rows, page*rows)` (1-indexed). -/
def paginatedMonthly (l : List EnergyRecord) (page rows : ℕ) : List EnergyRecord :=
  (l.drop ((page - 1) * rows)).take rows

/-- `Math.max(1, Math.ceil(sortedMonthly.length / rowsPerPage))`. -/
def totalPages (l : List EnergyRecord) (rows : ℕ) : ℕ :=
  max 1 ((l.length + rows - 1) / rows)

/-- Sort direction of the table sort state. -/
inductive Dir where
  | asc : Dir
  | desc : Dir
deriving DecidableEq, Repr

/-- The opposite sort direction. -/
def flipDir : Dir → Dir
  | Dir.asc => Dir.desc
  | Dir.desc => Dir.asc

/-- The table sort state `{ key, direction }`. -/
structure SortConfig where
  key : String
  direction : Dir
deriving DecidableEq, Repr

/-- The slice of component state touched by a sort request. -/
structure TableState where
  sortConfig : SortConfig
  currentPage : ℕ
deriving DecidableEq, Repr

/-- `requestSort(key)`: ascending unless the active key is re-selected while
ascending (then descending); always resets the page to 1. -/
def requestSort (st : TableState) (k : String) : TableState :=
  let direction := if st.sortConfig.key = k ∧ st.sortConfig.direction = Dir.asc
    then Dir.desc else Dir.asc
  { sortConfig := { key := k, direction := direction }, currentPage := 1 }

/-! ### Derived metrics -/

/-- `Math.max(...monthlyData.map(m => parseFloat(m.total_consumption || '0')), 1)`;
`jsMax` is commutative, so folding from the extra argument 1 is the same value. -/
def peakHighest (l : List EnergyRecord) : JF :=
  (l.map consumpVal).foldl jsMax (JF.num 1)

/-- `getTrendPercentage`: `Math.min(100, Math.round((consumption / highest) * 100))`. -/
def getTrendPercentage (c : JF) (l : List EnergyRecord) : JF :=
  jsMin (JF.num 100) (jsRound (jsMul (jsDiv c (peakHighest l)) (JF.num 100)))

/-- Spec-side peak: the maximum parsed consumption across all records,
floored at 1 (meaningful when every field parses). -/
def peakQ (l : List EnergyRecord) : ℚ :=
  (l.map (fun r => (consumpVal r).toQ)).foldl max 1

/-- `peakHour` / `peakInterval`: `hourlyData.reduce((max, item) => v(item) > v(max) ? item : max, hourlyData[0])`
guarded by a length check (`'N/A'` on empty input).  The reduce starts from
the head and also visits the head again, exactly as in the source. -/
def peakHour (l : List HourlyRecord) : Option HourlyRecord :=
  match l with
  | [] => none
  | x :: xs =>
    some ((x :: xs).foldl (fun mx item => if jsGtB (hVal item) (hVal mx) then item else mx) x)

/-! ### Hourly-detail date normalizer (HourlyDetail.js 12-16) -/

/-- Result of the hourly-detail `parseApiDate`: the current time (`new Date()`),
a parsed timestamp, or JavaScript's `Invalid Date`. -/
inductive HDate where
  | invalid : HDate
  | now : HDate
  | ts : ℕ → HDate
deriving DecidableEq, Repr

/-- Simplified ISO timestamp parse for `new Date(dateString)`: a strict
`YYYY-MM-DD` date part, optionally followed by `'T'`, a two-digit hour, `':'`
and a two-digit minute (seconds and zone suffix not modelled); the result is
minutes since the linearized epoch.  Anything else is invalid. -/
def parseISO (s : String) : Option ℕ :=
  match parseYMD (String.mk (s.data.take 10)) with
  | none => none
  | some d =>
    match s.data.drop 10 with
    | [] => some (d.key * 1440)
    | 'T' :: h1 :: h2 :: ':' :: m1 :: m2 :: _ =>
      if h1.isDigit ∧ h2.isDigit ∧ m1.isDigit ∧ m2.isDigit ∧
         digitsVal [h1, h2] < 24 ∧ digitsVal [m1, m2] < 60 then
        some (d.key * 1440 + digitsVal [h1, h2] * 60 + digitsVal [m1, m2])
      else none
    | _ => none

/-- The hourly-detail normalizer: `if (!dateString) return new Date(); return new Date(dateString)`.
A missing or empty input yields the current time, not a failure. -/
def parseApiDateH (ds : Option String) : HDate :=
  match ds with
  | none => HDate.now
  | some s => if s = "" then HDate.now
    else match parseISO s with
      | some t => HDate.ts t
      | none => HDate.invalid

/-! ### 15-minute interval formatter (HourlyDetail.js 19-30, data.service.ts 46-56) -/

/-- `hours === 0 ? 12 : hours > 12 ? hours - 12 : hours`. -/
def hour12 (hours : ℕ) : ℕ :=
  if hours = 0 then 12 else if hours > 12 then hours - 12 else hours

/-- `hours >= 12 ? 'PM' : 'AM'`. -/
def ampmOf (hours : ℕ) : String := if 12 ≤ hours then "PM" else "AM"

/-- `minutes.toString().padStart(2, '0')` for minute values below 100. -/
def pad2 (n : ℕ) : String := if n < 10 then "0" ++ toString n else toString n

/-- `formatTimeInterval` on a UTC timestamp given in minutes: extract the UTC
hour and minute fields and render the 12-hour clock string. -/
def formatTimeInterval (t : ℕ) : String :=
  let hours := t / 60 % 24
  let minutes := t % 60
  toString (hour12 hours) ++ ":" ++ pad2 minutes ++ " " ++ ampmOf hours

/-! ## Helper lemmas -/

theorem foldl_jsAdd_num {α : Type} (g : α → JF) (l : List α)
    (h : ∀ r ∈ l, g r ≠ JF.nan) (a : ℚ) :
    l.foldl (fun acc r => jsAdd acc (g r)) (JF.num a) =
      JF.num (a + (l.map (fun r => (g r).toQ)).sum) := by
  induction l generalizing a with
  | nil => simp
  | cons x xs ih =>
    have hx : g x ≠ JF.nan := h x (List.mem_cons_self _ _)
    obtain ⟨q, hq⟩ : ∃ q, g x = JF.num q := by
      cases hgx : g x
      · exact absurd hgx hx
      · exact ⟨_, rfl⟩
    have ihx := ih (fun r hr => h r (List.mem_cons_of_mem _ hr)) (a + q)
    have hstep : jsAdd (JF.num a) (g x) = JF.num (a + q) := by rw [hq]; rfl
    rw [List.foldl_cons, hstep, ihx, List.map_cons, List.sum_cons, hq]
    simp [JF.toQ, add_assoc]

theorem mem_insertSorted (key : EnergyRecord → ℕ) (x b : EnergyRecord) :
    ∀ l : List EnergyRecord, b ∈ insertSorted key x l ↔ b = x ∨ b ∈ l := by
  intro l
  induction l with
  | nil => simp [insertSorted]
  | cons y ys ih =>
    by_cases h : key x ≤ key y
    · simp [insertSorted, h]
    · simp [insertSorted, h, ih]
      tauto

theorem pairwise_insertSorted (key : EnergyRecord → ℕ) (x : EnergyRecord)
    (l : List EnergyRecord) (hl : l.Pairwise (fun a b => key a ≤ key b)) :
    (insertSorted key x l).Pairwise (fun a b => key a ≤ key b) := by
  induction l with
  | nil => simp [insertSorted]
  | cons y ys ih =>
    rcases List.pairwise_cons.mp hl with ⟨hy, hys⟩
    by_cases hxy : key x ≤ key y
    · rw [insertSorted, if_pos hxy]
      refine List.pairwise_cons.mpr ⟨?_, hl⟩
      intro b hb
      rcases List.mem_cons.mp hb with rfl | hb
      · exact hxy
      · exact le_trans hxy (hy b hb)
    · rw [insertSorted, if_neg hxy]
      refine List.pairwise_cons.mpr ⟨?_, ih hys⟩
      intro b hb
      rcases (mem_insertSorted key x b ys).mp hb with rfl | hb
      · exact le_of_lt (lt_of_not_le hxy)
      · exact hy b hb

theorem insertSorted_perm (key : EnergyRecord → ℕ) (x : EnergyRecord) :
    ∀ l : List EnergyRecord, List.Perm (insertSorted key x l) (x :: l) := by
  intro l
  induction l with
  | nil => simp [insertSorted]
  | cons y ys ih =>
    by_cases h : key x ≤ key y
    · simp [insertSorted, h]
    · rw [insertSorted, if_neg h]
      exact (ih.cons y).trans (List.Perm.swap x y ys)

theorem sortByKey_perm (key : EnergyRecord → ℕ) :
    ∀ l : List EnergyRecord, List.Perm (sortByKey key l) l := by
  intro l
  induction l with
  | nil => simp [sortByKey]
  | cons x xs ih =>
    exact (insertSorted_perm key x (sortByKey key xs)).trans (ih.cons x)

theorem sortByKey_pairwise (key : EnergyRecord → ℕ) :
    ∀ l : List EnergyRecord, (sortByKey key l).Pairwise (fun a b => key a ≤ key b) := by
  intro l
  induction l with
  | nil => simp [sortByKey]
  | cons x xs ih => exact pairwise_insertSorted key x _ ih

theorem takeWhile_append_T (l2 : List Char) :
    ∀ l1 : List Char, (∀ c ∈ l1, c ≠ 'T') →
      (l1 ++ 'T' :: l2).takeWhile (fun c => c != 'T') = l1 := by
  intro l1
  induction l1 with
  | nil => simp [List.takeWhile]
  | cons c cs ih =>
    intro h
    have hc : (c != 'T') = true := bne_iff_ne.mpr (h c (List.mem_cons_self _ _))
    rw [List.cons_append, List.takeWhile_cons, hc, if_pos rfl,
      ih (fun d hd => h d (List.mem_cons_of_mem _ hd))]

theorem takeWhile_no_T :
    ∀ l1 : List Char, (∀ c ∈ l1, c ≠ 'T') →
      l1.takeWhile (fun c => c != 'T') = l1 := by
  intro l1
  induction l1 with
  | nil => simp
  | cons c cs ih =>
    intro h
    have hc : (c != 'T') = true := bne_iff_ne.mpr (h c (List.mem_cons_self _ _))
    rw [List.takeWhile_cons, hc, if_pos rfl,
      ih (fun d hd => h d (List.mem_cons_of_mem _ hd))]

theorem splitT_spec (s suf : String) (h : ∀ c ∈ s.data, c ≠ 'T') :
    splitT (s ++ "T" ++ suf) = s ∧ splitT s = s := by
  constructor
  · show String.mk ((s ++ "T" ++ suf).data.takeWhile (fun c => c != 'T')) = s
    have hdata : (s ++ "T" ++ suf).data = s.data ++ 'T' :: suf.data := by
      rw [String.data_append, String.data_append]
      simp
    rw [hdata, takeWhile_append_T _ _ h]
  · show String.mk (s.data.takeWhile (fun c => c != 'T')) = s
    rw [takeWhile_no_T _ h]

theorem join_pages {rows : ℕ} (_hr : 1 ≤ rows) :
    ∀ (k : ℕ) (l : List EnergyRecord), l.length ≤ k * rows →
    ((List.range k).map (fun i => (l.drop (i * rows)).take rows)).flatten = l := by
  intro k
  induction k with
  | zero =>
    intro l hl
    have : l = [] := List.eq_nil_of_length_eq_zero (by simpa using hl)
    simp [this]
  | succ k ih =>
    intro l hl
    rw [List.range_succ_eq_map, List.map_cons, List.map_map, List.flatten_cons]
    have hmap : (fun i => (l.drop (i * rows)).take rows) ∘ Nat.succ =
        fun i => ((l.drop rows).drop (i * rows)).take rows := by
      funext i
      have hx : Nat.succ i * rows = i * rows + rows := Nat.succ_mul i rows
      simp only [Function.comp_apply, List.drop_drop, hx, Nat.add_comm, Nat.mul_comm]
      rw [Nat.mul_succ, Nat.add_comm (rows * i) rows]
    have hlen : (l.drop rows).length ≤ k * rows := by
      rw [List.length_drop]
      have hx : (k + 1) * rows = k * rows + rows := by ring
      rw [hx] at hl
      omega
    rw [hmap, Nat.zero_mul, List.drop_zero]
    rw [ih (l.drop rows) hlen]
    exact List.take_append_drop rows l

theorem foldl_jsMax_num (l : List EnergyRecord)
    (hl : ∀ r ∈ l, consumpVal r ≠ JF.nan) (a : ℚ) :
    (l.map consumpVal).foldl jsMax (JF.num a) =
      JF.num ((l.map (fun r => (consumpVal r).toQ)).foldl max a) := by
  induction l generalizing a with
  | nil => simp
  | cons x xs ih =>
    have hx : consumpVal x ≠ JF.nan := hl x (List.mem_cons_self _ _)
    obtain ⟨q, hq⟩ : ∃ q, consumpVal x = JF.num q := by
      cases hgx : consumpVal x
      · exact absurd hgx hx
      · exact ⟨_, rfl⟩
    have hstep : jsMax (JF.num a) (consumpVal x) = JF.num (max a q) := by rw [hq]; rfl
    rw [List.map_cons, List.foldl_cons, hstep,
      ih (fun r hr => hl r (List.mem_cons_of_mem _ hr)) (max a q),
      List.map_cons, List.foldl_cons, hq]
    rfl

theorem le_foldl_max : ∀ (l : List ℚ) (a : ℚ), a ≤ l.foldl max a := by
  intro l
  induction l with
  | nil => simp
  | cons x xs ih =>
    intro a
    exact le_trans (le_max_left a x) (ih (max a x))

theorem exists_num_of_ne_nan (v : JF) (h : v ≠ JF.nan) : ∃ q, v = JF.num q := by
  cases hv : v
  · exact absurd hv h
  · exact ⟨_, rfl⟩

theorem jsParseFloat_100 : jsParseFloat "100" = JF.num 100 := by
  show JF.num ((1 : ℚ) * ((digitsVal ['1', '0', '0'] : ℚ) +
    (digitsVal ([] : List Char) : ℚ) / (10 : ℚ) ^ (List.length ([] : List Char)))) = JF.num 100
  rw [show digitsVal ['1', '0', '0'] = 100 from rfl,
    show digitsVal ([] : List Char) = 0 from rfl]
  norm_num

theorem jsParseFloat_80 : jsParseFloat "80" = JF.num 80 := by
  show JF.num ((1 : ℚ) * ((digitsVal ['8', '0'] : ℚ) +
    (digitsVal ([] : List Char) : ℚ) / (10 : ℚ) ^ (List.length ([] : List Char)))) = JF.num 80
  rw [show digitsVal ['8', '0'] = 80 from rfl,
    show digitsVal ([] : List Char) = 0 from rfl]
  norm_num

theorem jsParseFloat_neg50 : jsParseFloat "-50" = JF.num (-50) := by
  show JF.num ((-1 : ℚ) * ((digitsVal ['5', '0'] : ℚ) +
    (digitsVal ([] : List Char) : ℚ) / (10 : ℚ) ^ (List.length ([] : List Char)))) = JF.num (-50)
  rw [show digitsVal ['5', '0'] = 50 from rfl,
    show digitsVal ([] : List Char) = 0 from rfl]
  norm_num

theorem jsParseFloat_5 : jsParseFloat "5" = JF.num 5 := by
  show JF.num ((1 : ℚ) * ((digitsVal ['5'] : ℚ) +
    (digitsVal ([] : List Char) : ℚ) / (10 : ℚ) ^ (List.length ([] : List Char)))) = JF.num 5
  rw [show digitsVal ['5'] = 5 from rfl,
    show digitsVal ([] : List Char) = 0 from rfl]
  norm_num

theorem jsParseFloat_9 : jsParseFloat "9" = JF.num 9 := by
  show JF.num ((1 : ℚ) * ((digitsVal ['9'] : ℚ) +
    (digitsVal ([] : List Char) : ℚ) / (10 : ℚ) ^ (List.length ([] : List Char)))) = JF.num 9
  rw [show digitsVal ['9'] = 9 from rfl,
    show digitsVal ([] : List Char) = 0 from rfl]
  norm_num

/-! ## Claim theorems -/

/-- C9: for every sort request, a key different from the active one sets the
direction to ascending; re-selecting the active key flips its direction
(ascending to descending and back); and every sort request resets the current
page to 1. -/
theorem claim_C9_requestSort (st : TableState) (k : String) :
    (requestSort st k).currentPage = 1 ∧
    (requestSort st k).sortConfig.key = k ∧
    (st.sortConfig.key ≠ k → (requestSort st k).sortConfig.direction = Dir.asc) ∧
    (st.sortConfig.key = k →
      (requestSort st k).sortConfig.direction = flipDir st.sortConfig.direction) := by
  refine ⟨rfl, rfl, ?_, ?_⟩
  · intro h
    simp [requestSort, h]
  · intro h
    cases hd : st.sortConfig.direction <;> simp [requestSort, h, hd, flipDir]

/-- C9 witness: the toggle behaviour at a concrete state (active key
`from_date`, direction descending, page 5). -/
theorem claim_C9_requestSort_witness :
    (requestSort ⟨⟨"from_date", Dir.desc⟩, 5⟩ "from_date").currentPage = 1 ∧
    (requestSort ⟨⟨"from_date", Dir.desc⟩, 5⟩ "from_date").sortConfig.key = "from_date" ∧
    ((⟨⟨"from_date", Dir.desc⟩, 5⟩ : TableState).sortConfig.key ≠ "from_date" →
      (requestSort ⟨⟨"from_date", Dir.desc⟩, 5⟩ "from_date").sortConfig.direction = Dir.asc) ∧
    ((⟨⟨"from_date", Dir.desc⟩, 5⟩ : TableState).sortConfig.key = "from_date" →
      (requestSort ⟨⟨"from_date", Dir.desc⟩, 5⟩ "from_date").sortConfig.direction =
        flipDir (⟨⟨"from_date", Dir.desc⟩, 5⟩ : TableState).sortConfig.direction) :=
  claim_C9_requestSort ⟨⟨"from_date", Dir.desc⟩, 5⟩ "from_date"

/-- C10: for every UTC timestamp (in minutes), the rendered hour is in 1..12
and the minutes are zero-padded to two digits; UTC hour 0 renders as
`12:MM AM`, hour 12 as `12:MM PM`, hours 1-11 unchanged with AM, and hours
13-23 as hour minus 12 with PM. -/
theorem claim_C10_formatTimeInterval (t : ℕ) :
    (1 ≤ hour12 (t / 60 % 24) ∧ hour12 (t / 60 % 24) ≤ 12) ∧
    (pad2 (t % 60)).length = 2 ∧
    (t / 60 % 24 = 0 →
      formatTimeInterval t = "12" ++ ":" ++ pad2 (t % 60) ++ " " ++ "AM") ∧
    (t / 60 % 24 = 12 →
      formatTimeInterval t = "12" ++ ":" ++ pad2 (t % 60) ++ " " ++ "PM") ∧
    (1 ≤ t / 60 % 24 → t / 60 % 24 ≤ 11 →
      formatTimeInterval t = toString (t / 60 % 24) ++ ":" ++ pad2 (t % 60) ++ " " ++ "AM") ∧
    (13 ≤ t / 60 % 24 →
      formatTimeInterval t = toString (t / 60 % 24 - 12) ++ ":" ++ pad2 (t % 60) ++ " " ++ "PM") := by
  have hlt : t / 60 % 24 < 24 := Nat.mod_lt _ (by norm_num)
  have hm : t % 60 < 60 := Nat.mod_lt _ (by norm_num)
  have hpad : ∀ m : ℕ, m < 60 → (pad2 m).length = 2 := by decide
  refine ⟨?_, hpad _ hm, ?_, ?_, ?_, ?_⟩
  · unfold hour12
    split_ifs <;> omega
  · intro h
    simp only [formatTimeInterval, h, hour12, ampmOf]
    rfl
  · intro h
    simp only [formatTimeInterval, h, hour12, ampmOf]
    rfl
  · intro h1 h2
    have hne : ¬ t / 60 % 24 = 0 := by omega
    have hng : ¬ t / 60 % 24 > 12 := by omega
    have hnp : ¬ 12 ≤ t / 60 % 24 := by omega
    simp only [formatTimeInterval, hour12, ampmOf, if_neg hne, if_neg hng, if_neg hnp]
  · intro h
    have hne : ¬ t / 60 % 24 = 0 := by omega
    have hg : t / 60 % 24 > 12 := by omega
    have hp : 12 ≤ t / 60 % 24 := by omega
    simp only [formatTimeInterval, hour12, ampmOf, if_neg hne, if_pos hg, if_pos hp]

/-- C10 witness: concrete rendered strings at UTC minutes 30 (hour 0),
750 (hour 12), 65 (hour 1) and 785 (hour 13). -/
theorem claim_C10_formatTimeInterval_witness :
    formatTimeInterval 30 = "12:30 AM" ∧ formatTimeInterval 750 = "12:30 PM" ∧
    formatTimeInterval 65 = "1:05 AM" ∧ formatTimeInterval 785 = "1:05 PM" := by
  refine ⟨?_, ?_, ?_, ?_⟩
  · rw [(claim_C10_formatTimeInterval 30).2.2.1 (by norm_num)]
    decide
  · rw [(claim_C10_formatTimeInterval 750).2.2.2.1 (by norm_num)]
    decide
  · rw [(claim_C10_formatTimeInterval 65).2.2.2.2.1 (by norm_num) (by norm_num)]
    decide
  · rw [(claim_C10_formatTimeInterval 785).2.2.2.2.2 (by norm_num)]
    decide

/-- C5: the dashboard date normalizer depends only on the part of the wire
string before the first `'T'`: appending a time-and-zone suffix to a date-only
string never changes the resulting calendar date, and in particular
`2025-03-15T23:00:00-08:00` and `2025-03-15` both normalize to the calendar
date 2025-03-15 (the model's output is a pure calendar date, identical for
every viewer timezone). -/
theorem claim_C5_parseApiDate :
    (∀ s suf : String, (∀ c ∈ s.data, c ≠ 'T') →
       parseApiDate (s ++ "T" ++ suf) = parseApiDate s) ∧
    parseApiDate "2025-03-15T23:00:00-08:00" = some ⟨2025, 3, 15⟩ ∧
    parseApiDate "2025-03-15" = some ⟨2025, 3, 15⟩ := by
  refine ⟨?_, by decide, by decide⟩
  intro s suf h
  unfold parseApiDate
  rw [(splitT_spec s suf h).1, (splitT_spec s suf h).2]

/-- C5 witness: the prefix-only property applied at the concrete date-only
string `2025-03-15` and suffix `23:00:00-08:00`. -/
theorem claim_C5_parseApiDate_witness :
    parseApiDate ("2025-03-15" ++ "T" ++ "23:00:00-08:00") = parseApiDate "2025-03-15" :=
  claim_C5_parseApiDate.1 "2025-03-15" "23:00:00-08:00" (by decide)

/-- C4: for every record list and every page size of at least 1, the page
count is at least 1 (and exactly 1 for an empty list), the pages cover the
list (`length ≤ totalPages * rows`) with no spare full page, page `p` is the
slice `[(p-1)*rows, p*rows)`, and concatenating pages 1 through `totalPages`
reproduces the list exactly once. -/
theorem claim_C4_pagination (l : List EnergyRecord) (rows : ℕ) (hr : 1 ≤ rows) :
    1 ≤ totalPages l rows ∧
    (l.length = 0 → totalPages l rows = 1) ∧
    l.length ≤ totalPages l rows * rows ∧
    (1 < totalPages l rows → (totalPages l rows - 1) * rows < l.length) ∧
    (∀ page i : ℕ, (paginatedMonthly l page rows).get? i =
       if i < rows then l.get? ((page - 1) * rows + i) else none) ∧
    ((List.range (totalPages l rows)).map (fun i => paginatedMonthly l (i + 1) rows)).flatten = l := by
  have hrpos : 0 < rows := hr
  have h1 := Nat.div_add_mod (l.length + rows - 1) rows
  have h2 := Nat.mod_lt (l.length + rows - 1) hrpos
  have hcover : l.length ≤ totalPages l rows * rows := by
    by_cases hq : (l.length + rows - 1) / rows = 0
    · have htp : totalPages l rows = 1 := by simp [totalPages, hq]
      rw [htp]
      rw [hq, Nat.mul_zero] at h1
      generalize (l.length + rows - 1) % rows = rem at h1 h2
      omega
    · have htp : totalPages l rows = (l.length + rows - 1) / rows := by
        simp [totalPages, Nat.max_eq_right (Nat.one_le_iff_ne_zero.mpr hq)]
      rw [htp, Nat.mul_comm]
      generalize (l.length + rows - 1) / rows = q at h1 ⊢
      generalize (l.length + rows - 1) % rows = rem at h1 h2
      generalize rows * q = M at h1 ⊢
      omega
  have hslice : ∀ page i : ℕ, (paginatedMonthly l page rows).get? i =
      if i < rows then l.get? ((page - 1) * rows + i) else none := by
    intro page i
    by_cases hi : i < rows
    · rw [if_pos hi, paginatedMonthly, List.get?_take hi, List.get?_drop]
    · rw [if_neg hi, paginatedMonthly]
      apply List.get?_eq_none.mpr
      calc (List.take rows (List.drop ((page - 1) * rows) l)).length ≤ rows :=
            List.length_take_le _ _
        _ ≤ i := by omega
  refine ⟨le_max_left 1 _, ?_, hcover, ?_, hslice, ?_⟩
  · intro h0
    have : (l.length + rows - 1) / rows = 0 :=
      Nat.div_eq_of_lt (by omega)
    simp [totalPages, this]
  · intro htp1
    have hq2 : 2 ≤ (l.length + rows - 1) / rows := by
      by_contra hq
      have hle : (l.length + rows - 1) / rows ≤ 1 :=
        Nat.lt_succ_iff.mp (Nat.lt_of_not_le hq)
      have hcontra : totalPages l rows ≤ 1 :=
        Nat.max_le.mpr ⟨le_refl 1, hle⟩
      exact absurd htp1 (not_lt.mpr hcontra)
    have htp : totalPages l rows = (l.length + rows - 1) / rows := by
      simp [totalPages, Nat.max_eq_right (le_trans one_le_two hq2)]
    have hM2 : rows * 2 ≤ rows * ((l.length + rows - 1) / rows) :=
      Nat.mul_le_mul_left rows hq2
    rw [htp, Nat.sub_mul, Nat.mul_comm]
    generalize (l.length + rows - 1) / rows = q at h1 hM2 ⊢
    generalize (l.length + rows - 1) % rows = rem at h1 h2
    generalize rows * q = M at h1 hM2 ⊢
    omega
  · have hjoin := join_pages hr (totalPages l rows) l hcover
    have hmap : (List.range (totalPages l rows)).map (fun i => paginatedMonthly l (i + 1) rows) =
        (List.range (totalPages l rows)).map (fun i => (l.drop (i * rows)).take rows) := by
      apply List.map_congr_left
      intro i _
      simp [paginatedMonthly]
    rw [hmap]
    exact hjoin

/-- C4 witness: pagination of a concrete five-record list with page size 2:
pages concatenate back to the list. -/
theorem claim_C4_pagination_witness :
    ((List.range (totalPages
        [⟨"2025-01-01", none, none, none⟩, ⟨"2025-02-01", none, none, none⟩,
         ⟨"2025-03-01", none, none, none⟩, ⟨"2025-04-01", none, none, none⟩,
         ⟨"2025-05-01", none, none, none⟩] 2)).map
      (fun i => paginatedMonthly
        [⟨"2025-01-01", none, none, none⟩, ⟨"2025-02-01", none, none, none⟩,
         ⟨"2025-03-01", none, none, none⟩, ⟨"2025-04-01", none, none, none⟩,
         ⟨"2025-05-01", none, none, none⟩] (i + 1) 2)).flatten =
    [⟨"2025-01-01", none, none, none⟩, ⟨"2025-02-01", none, none, none⟩,
     ⟨"2025-03-01", none, none, none⟩, ⟨"2025-04-01", none, none, none⟩,
     ⟨"2025-05-01", none, none, none⟩] :=
  (claim_C4_pagination _ 2 (by norm_num)).2.2.2.2.2

/-- C1 counterexample: a record whose consumption field is the malformed
non-empty string `abc` does not contribute 0 to the year-to-date sum: it makes
the whole sum NaN (`"abc" || 0` keeps the string and `parseFloat("abc")` is
NaN, which `+` propagates), refuting both "never returns NaN" and
"malformed contributes exactly 0". -/
theorem claim_C1_counterexample :
    ytdConsumption [⟨"2025-01-01", some "abc", some "20", none⟩] = JF.nan ∧
    consumpVal ⟨"2025-01-01", some "abc", some "20", none⟩ = JF.nan ∧
    JF.nan ≠ JF.num 0 := by
  refine ⟨by decide, by decide, by decide⟩

/-- C1 (amended): the sums and the per-interval average are total (never
raise); a record whose numeric field is missing or empty contributes exactly
0; and when every record's numeric field parses (has a numeric prefix) the
results are finite numbers, never NaN or an infinity.  A malformed non-empty
field instead poisons the total to NaN (see the counterexample). -/
theorem claim_C1_sum_amended (lm : List EnergyRecord) (lh : List HourlyRecord)
    (hm : ∀ r ∈ lm, consumpVal r ≠ JF.nan ∧ chargesVal r ≠ JF.nan)
    (hh : ∀ r ∈ lh, hVal r ≠ JF.nan) :
    (∃ q : ℚ, ytdConsumption lm = JF.num q) ∧
    (∃ q : ℚ, ytdCharges lm = JF.num q) ∧
    (∃ q : ℚ, totalHourlyKwh lh = JF.num q) ∧
    (∃ q : ℚ, averageHourlyUsage lh = JF.num q) ∧
    (∀ r : EnergyRecord, consumpVal r = JF.num 0 →
       ytdConsumption (r :: lm) = ytdConsumption lm) := by
  have hkwh : totalHourlyKwh lh =
      JF.num (0 + (lh.map (fun r => (hVal r).toQ)).sum) :=
    foldl_jsAdd_num hVal lh hh 0
  refine ⟨⟨_, foldl_jsAdd_num consumpVal lm (fun r hr => (hm r hr).1) 0⟩,
    ⟨_, foldl_jsAdd_num chargesVal lm (fun r hr => (hm r hr).2) 0⟩,
    ⟨_, hkwh⟩, ?_, ?_⟩
  · by_cases hlen : 0 < lh.length
    · have hne : (lh.length : ℚ) ≠ 0 := Nat.cast_ne_zero.mpr (by omega)
      refine ⟨(0 + (lh.map (fun r => (hVal r).toQ)).sum) / lh.length, ?_⟩
      rw [averageHourlyUsage, if_pos hlen, hkwh, jsDiv, if_neg hne]
    · exact ⟨0, by rw [averageHourlyUsage, if_neg hlen]⟩
  · intro r hr0
    show List.foldl _ (jsAdd (JF.num 0) (consumpVal r)) lm = _
    rw [hr0]
    show List.foldl _ (JF.num (0 + 0)) lm = _
    simp [ytdConsumption]

/-- C1 witness: the amended statement applied to a concrete monthly list and
a concrete hourly list whose fields all parse. -/
theorem claim_C1_sum_amended_witness :
    (∃ q : ℚ, ytdConsumption [⟨"2025-01-01", some "100", some "20", none⟩] = JF.num q) ∧
    (∃ q : ℚ, ytdCharges [⟨"2025-01-01", some "100", some "20", none⟩] = JF.num q) ∧
    (∃ q : ℚ, totalHourlyKwh [⟨some "2025-01-01T00:00", some "1.5", none, some "0.3", none⟩] = JF.num q) ∧
    (∃ q : ℚ, averageHourlyUsage [⟨some "2025-01-01T00:00", some "1.5", none, some "0.3", none⟩] = JF.num q) ∧
    (∀ r : EnergyRecord, consumpVal r = JF.num 0 →
       ytdConsumption (r :: [⟨"2025-01-01", some "100", some "20", none⟩]) =
         ytdConsumption [⟨"2025-01-01", some "100", some "20", none⟩]) :=
  claim_C1_sum_amended [⟨"2025-01-01", some "100", some "20", none⟩]
    [⟨some "2025-01-01T00:00", some "1.5", none, some "0.3", none⟩]
    (by decide) (by decide)

/-- C6 counterexample: at a negative consumption argument the trend
percentage is negative, so it does not always lie in `[0, 100]` as the claim
states (`getTrendPercentage (-1) [] = min 100 (round ((-1) / 1 * 100)) = -100`). -/
theorem claim_C6_counterexample :
    getTrendPercentage (JF.num (-1)) [] = JF.num (-100) ∧ ((-100 : ℚ) < 0) := by
  constructor
  · have hpeak : peakHighest ([] : List EnergyRecord) = JF.num 1 := rfl
    rw [getTrendPercentage, hpeak, jsDiv, if_neg (by norm_num : (1 : ℚ) ≠ 0)]
    show jsMin (JF.num 100) (jsRound (JF.num (-1 / 1 * 100))) = _
    rw [show ((-1 : ℚ) / 1 * 100) = ((-100 : ℤ) : ℚ) by norm_num]
    show jsMin (JF.num 100) (JF.num ((round (((-100 : ℤ) : ℚ)) : ℤ) : ℚ)) = _
    rw [round_intCast]
    show JF.num (min 100 (((-100 : ℤ) : ℚ))) = _
    rw [min_eq_right (by norm_num)]
    norm_num
  · norm_num

/-- C6 (amended): `trendPercentage` equals
`min(100, round(consumption / max(peakConsumptionAcrossAllRecords, 1) * 100))`
with the peak taken over the full collection, and the result lies in
`[0, 100]` whenever the consumption argument is non-negative and every
record's consumption field parses; a negative argument or a NaN peak escapes
the interval (see the counterexample). -/
theorem claim_C6_trend_amended (c : ℚ) (l : List EnergyRecord)
    (hc : 0 ≤ c) (hl : ∀ r ∈ l, consumpVal r ≠ JF.nan) :
    getTrendPercentage (JF.num c) l =
      JF.num (min 100 ((round (c / peakQ l * 100) : ℤ) : ℚ)) ∧
    1 ≤ peakQ l ∧
    0 ≤ min (100 : ℚ) ((round (c / peakQ l * 100) : ℤ) : ℚ) ∧
    min (100 : ℚ) ((round (c / peakQ l * 100) : ℤ) : ℚ) ≤ 100 := by
  have hpeak : peakHighest l = JF.num (peakQ l) := foldl_jsMax_num l hl 1
  have hp1 : 1 ≤ peakQ l := le_foldl_max _ 1
  have hppos : (0 : ℚ) < peakQ l := lt_of_lt_of_le one_pos hp1
  have hstep : getTrendPercentage (JF.num c) l =
      JF.num (min 100 ((round (c / peakQ l * 100) : ℤ) : ℚ)) := by
    rw [getTrendPercentage, hpeak, jsDiv, if_neg (ne_of_gt hppos)]
    rfl
  have hval : (0 : ℚ) ≤ c / peakQ l * 100 := by positivity
  have hround : (0 : ℤ) ≤ round (c / peakQ l * 100) := by
    rw [round_eq]
    exact Int.le_floor.mpr (by push_cast; linarith)
  refine ⟨hstep, hp1, ?_, min_le_left _ _⟩
  exact le_min (by norm_num) (by exact_mod_cast hround)

/-- C6 witness: the amended statement at consumption 50 against a collection
whose peak parses to 200 (trend 25). -/
theorem claim_C6_trend_amended_witness :
    getTrendPercentage (JF.num 50) [⟨"2025-01-01", some "200", none, none⟩] =
      JF.num (min 100 ((round ((50 : ℚ) / peakQ [⟨"2025-01-01", some "200", none, none⟩] * 100) : ℤ) : ℚ)) ∧
    1 ≤ peakQ [⟨"2025-01-01", some "200", none, none⟩] ∧
    0 ≤ min (100 : ℚ) ((round ((50 : ℚ) / peakQ [⟨"2025-01-01", some "200", none, none⟩] * 100) : ℤ) : ℚ) ∧
    min (100 : ℚ) ((round ((50 : ℚ) / peakQ [⟨"2025-01-01", some "200", none, none⟩] * 100) : ℤ) : ℚ) ≤ 100 :=
  claim_C6_trend_amended 50 [⟨"2025-01-01", some "200", none, none⟩]
    (by norm_num) (by decide)

/-- C8 counterexample: the hourly date normalizer does not fail with
InvalidDate on empty or null input: it substitutes the current time itself
(`if (!dateString) return new Date()`), a usable date. -/
theorem claim_C8_counterexample :
    parseApiDateH (some "") = HDate.now ∧ parseApiDateH none = HDate.now ∧
    HDate.now ≠ HDate.invalid := by
  refine ⟨rfl, rfl, by decide⟩

/-- C8 (amended): empty or null input yields the `now` sentinel (not an
InvalidDate failure), a non-empty unparseable string yields InvalidDate, and
the sentinel never propagates into the hourly aggregates: the sums and the
per-interval average are invariant under arbitrary rewriting of every
record's `from_date` field. -/
theorem claim_C8_sentinel_amended (l : List HourlyRecord) (g : HourlyRecord → Option String) :
    parseApiDateH (some "") = HDate.now ∧ parseApiDateH none = HDate.now ∧
    parseApiDateH (some "not-a-date") = HDate.invalid ∧
    totalHourlyKwh (l.map (fun r => { r with from_date := g r })) = totalHourlyKwh l ∧
    totalHourlyCharges (l.map (fun r => { r with from_date := g r })) = totalHourlyCharges l ∧
    averageHourlyUsage (l.map (fun r => { r with from_date := g r })) = averageHourlyUsage l := by
  have hkwh : totalHourlyKwh (l.map (fun r => { r with from_date := g r })) = totalHourlyKwh l := by
    rw [totalHourlyKwh, totalHourlyKwh, List.foldl_map]
    rfl
  have hchg : totalHourlyCharges (l.map (fun r => { r with from_date := g r })) =
      totalHourlyCharges l := by
    rw [totalHourlyCharges, totalHourlyCharges, List.foldl_map]
    rfl
  refine ⟨rfl, rfl, by decide, hkwh, hchg, ?_⟩
  rw [averageHourlyUsage, averageHourlyUsage, List.length_map, hkwh]

theorem inRangeAngular_iff (rs re : CalDate) (r : EnergyRecord) :
    inRangeAngular rs re r = true ↔
      ∃ d, parseApiDate r.from_date = some d ∧ rs.key ≤ d.key ∧ d.key ≤ re.key := by
  cases h : parseApiDate r.from_date with
  | none => simp [inRangeAngular, h]
  | some d =>
    have heq : inRangeAngular rs re r =
        (decide (startOfDayMs rs ≤ noonMs d) && decide (noonMs d ≤ endOfDayMs re)) := by
      unfold inRangeAngular
      rw [h]
    rw [heq]
    simp only [Bool.and_eq_true, decide_eq_true_eq]
    unfold startOfDayMs endOfDayMs noonMs dayMs
    constructor
    · rintro ⟨h1, h2⟩
      exact ⟨d, rfl, by omega, by omega⟩
    · rintro ⟨d2, hd2, h1, h2⟩
      injection hd2 with hd
      subst hd
      exact ⟨by omega, by omega⟩

/-- C3 counterexample: the filtered result is not ascending-by-date for every
daily collection — on an input that is already oldest-first the `reverse()`
makes it descending; and the React variant, which compares the noon-normalized
record date against the raw range end (midnight of the end day), excludes the
record whose normalized date equals the end date. -/
theorem claim_C3_counterexample :
    filteredDailyData
        [⟨"2025-05-10", some "1", some "1", none⟩, ⟨"2025-05-11", some "2", some "2", none⟩]
        ⟨2025, 5, 10⟩ ⟨2025, 5, 12⟩ =
      [⟨"2025-05-11", some "2", some "2", none⟩, ⟨"2025-05-10", some "1", some "1", none⟩] ∧
    dKeyMs ⟨"2025-05-10", some "1", some "1", none⟩ <
      dKeyMs ⟨"2025-05-11", some "2", some "2", none⟩ ∧
    filteredDailyDataReact [⟨"2025-05-12", some "1", some "1", none⟩]
        (startOfDayMs ⟨2025, 5, 10⟩) (startOfDayMs ⟨2025, 5, 12⟩) = [] ∧
    parseApiDate "2025-05-12" = some ⟨2025, 5, 12⟩ := by
  refine ⟨by decide, by decide, by decide, by decide⟩

/-- C3 (amended): the Angular date-range filter keeps exactly the records
whose normalized date lies within `[start, end]` inclusive at day granularity
(so a record whose normalized date equals the end date is kept), and returns
them in reverse input order, which is ascending-by-date exactly when the
input collection is newest-first; the React variant compares against the raw
range endpoints and can drop end-date records (see the counterexample). -/
theorem claim_C3_dateRangeFilter (l : List EnergyRecord) (rs re : CalDate) :
    (∀ r, r ∈ filteredDailyData l rs re ↔
       (r ∈ l ∧ ∃ d, parseApiDate r.from_date = some d ∧ rs.key ≤ d.key ∧ d.key ≤ re.key)) ∧
    (l.Pairwise (fun a b => dKeyMs b ≤ dKeyMs a) →
      (filteredDailyData l rs re).Pairwise (fun a b => dKeyMs a ≤ dKeyMs b)) := by
  constructor
  · intro r
    rw [filteredDailyData, List.mem_reverse, List.mem_filter, inRangeAngular_iff]
  · intro hdesc
    rw [filteredDailyData, List.pairwise_reverse]
    exact hdesc.filter _

/-- C3 witness: the claim's scenario — filtering a newest-first daily list
with the range 2025-05-10 to 2025-05-12 returns exactly the records of the
10th, 11th and 12th in ascending date order. -/
theorem claim_C3_dateRangeFilter_witness :
    filteredDailyData
        [⟨"2025-05-13", some "4", none, none⟩, ⟨"2025-05-12", some "3", none, none⟩,
         ⟨"2025-05-11", some "2", none, none⟩, ⟨"2025-05-10", some "1", none, none⟩,
         ⟨"2025-05-09", some "0", none, none⟩] ⟨2025, 5, 10⟩ ⟨2025, 5, 12⟩ =
      [⟨"2025-05-10", some "1", none, none⟩, ⟨"2025-05-11", some "2", none, none⟩,
       ⟨"2025-05-12", some "3", none, none⟩] ∧
    (filteredDailyData
        [⟨"2025-05-13", some "4", none, none⟩, ⟨"2025-05-12", some "3", none, none⟩,
         ⟨"2025-05-11", some "2", none, none⟩, ⟨"2025-05-10", some "1", none, none⟩,
         ⟨"2025-05-09", some "0", none, none⟩] ⟨2025, 5, 10⟩
        ⟨2025, 5, 12⟩).Pairwise (fun a b => dKeyMs a ≤ dKeyMs b) :=
  ⟨by decide, (claim_C3_dateRangeFilter _ _ _).2 (by decide)⟩

/-- C2 counterexample: when the second-to-last entry's consumption parses to
the negative value -50 (which is not 0), the claim promises the numeric
result `((100 - (-50)) / (-50)) * 100 = -300.0`, but the code's guard
requires the previous consumption to be strictly positive and returns null. -/
theorem claim_C2_counterexample :
    monthlyChange [⟨"2025-01-01", some "-50", some "20", none⟩,
                   ⟨"2025-02-01", some "100", some "18", none⟩] = none ∧
    consumpVal ⟨"2025-01-01", some "-50", some "20", none⟩ = JF.num (-50) ∧
    ((-50 : ℚ) ≠ 0) ∧
    (dateSortedMonthly [⟨"2025-01-01", some "-50", some "20", none⟩,
                   ⟨"2025-02-01", some "100", some "18", none⟩]).get? 0 =
      some ⟨"2025-01-01", some "-50", some "20", none⟩ := by
  have hparse : consumpVal ⟨"2025-01-01", some "-50", some "20", none⟩ = JF.num (-50) :=
    jsParseFloat_neg50
  refine ⟨?_, hparse, by norm_num, by decide⟩
  have hgt : jsGtB (consumpVal ⟨"2025-01-01", some "-50", some "20", none⟩) (JF.num 0)
      = false := by
    rw [hparse]
    show decide ((0 : ℚ) < -50) = false
    exact decide_eq_false (by norm_num)
  show (if jsGtB (consumpVal ⟨"2025-01-01", some "-50", some "20", none⟩) (JF.num 0) = true
      then some (jsToFixed1 (jsMul (jsDiv (jsSub
        (consumpVal ⟨"2025-02-01", some "100", some "18", none⟩)
        (consumpVal ⟨"2025-01-01", some "-50", some "20", none⟩))
        (consumpVal ⟨"2025-01-01", some "-50", some "20", none⟩)) (JF.num 100)))
      else none) = none
  rw [hgt]
  simp

/-- C2 (amended): `monthlyChange` sorts the kept records (those with a
nonempty `from_date`) stably ascending by normalized date (the sorted list is
a permutation of the kept records, pairwise ordered by the noon-timestamp
key); with fewer than two entries it returns null; letting `prev` and `last`
be the second-to-last and last entries of the sorted list, it returns null
whenever `prev`'s parsed consumption is not strictly positive (zero, negative
or NaN), and otherwise returns `((last - prev) / prev) * 100` rounded to one
decimal place (positive meaning increase). -/
theorem claim_C2_monthlyChange (l : List EnergyRecord) :
    List.Perm (dateSortedMonthly l) (l.filter (fun r => r.from_date ≠ "")) ∧
    (dateSortedMonthly l).Pairwise (fun a b => dKeyMs a ≤ dKeyMs b) ∧
    ((dateSortedMonthly l).length < 2 → monthlyChange l = none) ∧
    (∀ prevE lastE, 2 ≤ (dateSortedMonthly l).length →
      (dateSortedMonthly l).get? ((dateSortedMonthly l).length - 2) = some prevE →
      (dateSortedMonthly l).get? ((dateSortedMonthly l).length - 1) = some lastE →
      ((consumpVal prevE = JF.nan ∨ ∃ p ≤ 0, consumpVal prevE = JF.num p) →
         monthlyChange l = none) ∧
      (∀ p c : ℚ, consumpVal prevE = JF.num p → 0 < p → consumpVal lastE = JF.num c →
         monthlyChange l = some (JF.num (round1 ((c - p) / p * 100))))) := by
  refine ⟨sortByKey_perm _ _, sortByKey_pairwise _ _, ?_, ?_⟩
  · intro hlen
    simp only [monthlyChange]
    rw [if_pos hlen]
  · intro prevE lastE h2 hp hl2
    constructor
    · intro hnp
      have hgt : jsGtB (consumpVal prevE) (JF.num 0) = false := by
        rcases hnp with hnan | ⟨p, hple, hpe⟩
        · rw [hnan]
          rfl
        · rw [hpe]
          show decide ((0 : ℚ) < p) = false
          exact decide_eq_false (not_lt.mpr hple)
      simp only [monthlyChange]
      rw [if_neg (not_lt.mpr h2), hl2, hp]
      show (if jsGtB (consumpVal prevE) (JF.num 0) = true
          then some (jsToFixed1 (jsMul (jsDiv (jsSub (consumpVal lastE) (consumpVal prevE))
            (consumpVal prevE)) (JF.num 100)))
          else none) = none
      rw [hgt]
      simp
    · intro p c hpe hppos hce
      have hgt : jsGtB (consumpVal prevE) (JF.num 0) = true := by
        rw [hpe]
        show decide ((0 : ℚ) < p) = true
        exact decide_eq_true hppos
      simp only [monthlyChange]
      rw [if_neg (not_lt.mpr h2), hl2, hp]
      show (if jsGtB (consumpVal prevE) (JF.num 0) = true
          then some (jsToFixed1 (jsMul (jsDiv (jsSub (consumpVal lastE) (consumpVal prevE))
            (consumpVal prevE)) (JF.num 100)))
          else none) = some (JF.num (round1 ((c - p) / p * 100)))
      rw [hgt, if_pos rfl, hpe, hce]
      show some (jsToFixed1 (jsMul (jsDiv (JF.num (c - p)) (JF.num p)) (JF.num 100))) = _
      rw [jsDiv, if_neg (ne_of_gt hppos)]
      rfl

/-- C2 witness: the claim's example — records of 2025-01-01 with consumption
100 and 2025-02-01 with consumption 80 give `((80 - 100) / 100) * 100`
rounded to one decimal, which is -20.0; the sorted list is ascending. -/
theorem claim_C2_monthlyChange_witness :
    monthlyChange [⟨"2025-01-01", some "100", some "20", none⟩,
                   ⟨"2025-02-01", some "80", some "18", none⟩] = some (JF.num (-20)) ∧
    (dateSortedMonthly [⟨"2025-01-01", some "100", some "20", none⟩,
                        ⟨"2025-02-01", some "80", some "18", none⟩]).Pairwise
      (fun a b => dKeyMs a ≤ dKeyMs b) := by
  constructor
  · have h := ((claim_C2_monthlyChange
        [⟨"2025-01-01", some "100", some "20", none⟩,
         ⟨"2025-02-01", some "80", some "18", none⟩]).2.2.2
      ⟨"2025-01-01", some "100", some "20", none⟩
      ⟨"2025-02-01", some "80", some "18", none⟩
      (by decide) (by decide) (by decide)).2 100 80
      jsParseFloat_100 (by norm_num) jsParseFloat_80
    rw [h]
    have hval : ((80 : ℚ) - 100) / 100 * 100 = -20 := by norm_num
    rw [hval]
    have hr1 : round1 (-20) = -20 := by
      rw [round1, show ((-20 : ℚ) * 10) = ((-200 : ℤ) : ℚ) by norm_num, round_intCast]
      norm_num
    rw [hr1]
  · exact (claim_C2_monthlyChange _).2.1

theorem peak_fold_spec (xs : List HourlyRecord) :
    ∀ acc : HourlyRecord, (∀ r ∈ xs, hVal r ≠ JF.nan) → hVal acc ≠ JF.nan →
    ((xs.foldl (fun mx item => if jsGtB (hVal item) (hVal mx) then item else mx) acc = acc ∧
       ∀ j y, xs.get? j = some y → (hVal y).toQ ≤ (hVal acc).toQ) ∨
     (∃ i x, xs.get? i = some x ∧
       xs.foldl (fun mx item => if jsGtB (hVal item) (hVal mx) then item else mx) acc = x ∧
       (hVal acc).toQ < (hVal x).toQ ∧
       (∀ j y, xs.get? j = some y → (hVal y).toQ ≤ (hVal x).toQ) ∧
       (∀ j y, j < i → xs.get? j = some y → (hVal y).toQ < (hVal x).toQ))) := by
  induction xs with
  | nil =>
    intro acc hxs hacc
    left
    refine ⟨rfl, ?_⟩
    intro j y hj
    simp at hj
  | cons z zs ih =>
    intro acc hxs hacc
    have hz : hVal z ≠ JF.nan := hxs z (List.mem_cons_self _ _)
    obtain ⟨qz, hqz⟩ := exists_num_of_ne_nan _ hz
    obtain ⟨qa, hqa⟩ := exists_num_of_ne_nan _ hacc
    have hzs : ∀ r ∈ zs, hVal r ≠ JF.nan := fun r hr => hxs r (List.mem_cons_of_mem _ hr)
    by_cases hlt : qa < qz
    · have hstep : (if jsGtB (hVal z) (hVal acc) then z else acc) = z := by
        rw [hqz, hqa]
        simp [jsGtB, hlt]
      rw [List.foldl_cons, hstep]
      rcases ih z hzs hz with ⟨heq, hle⟩ | ⟨i, x, hget, heq, hlt2, hle, hstrict⟩
      · right
        refine ⟨0, z, rfl, heq, ?_, ?_, ?_⟩
        · rw [hqa, hqz]
          exact hlt
        · intro j y hj
          cases j with
          | zero =>
            injection hj with hy
            subst hy
            exact le_refl _
          | succ j => exact hle j y hj
        · intro j y hjlt hj
          exact absurd hjlt (Nat.not_lt_zero j)
      · right
        refine ⟨i + 1, x, by simpa using hget, heq, ?_, ?_, ?_⟩
        · have hz2 : (hVal acc).toQ < (hVal z).toQ := by
            rw [hqa, hqz]
            exact hlt
          exact lt_trans hz2 hlt2
        · intro j y hj
          cases j with
          | zero =>
            injection hj with hy
            subst hy
            exact le_of_lt hlt2
          | succ j => exact hle j y hj
        · intro j y hjlt hj
          cases j with
          | zero =>
            injection hj with hy
            subst hy
            exact hlt2
          | succ j => exact hstrict j y (by omega) hj
    · have hstep : (if jsGtB (hVal z) (hVal acc) then z else acc) = acc := by
        rw [hqz, hqa]
        simp [jsGtB, hlt]
      rw [List.foldl_cons, hstep]
      rcases ih acc hzs hacc with ⟨heq, hle⟩ | ⟨i, x, hget, heq, hlt2, hle, hstrict⟩
      · left
        refine ⟨heq, ?_⟩
        intro j y hj
        cases j with
        | zero =>
          injection hj with hy
          subst hy
          rw [hqz, hqa]
          exact not_lt.mp hlt
        | succ j => exact hle j y hj
      · right
        refine ⟨i + 1, x, by simpa using hget, heq, hlt2, ?_, ?_⟩
        · intro j y hj
          cases j with
          | zero =>
            injection hj with hy
            subst hy
            calc (hVal z).toQ ≤ (hVal acc).toQ := by
                  rw [hqz, hqa]
                  exact not_lt.mp hlt
              _ ≤ (hVal x).toQ := le_of_lt hlt2
          | succ j => exact hle j y hj
        · intro j y hjlt hj
          cases j with
          | zero =>
            injection hj with hy
            subst hy
            calc (hVal z).toQ ≤ (hVal acc).toQ := by
                  rw [hqz, hqa]
                  exact not_lt.mp hlt
              _ < (hVal x).toQ := hlt2
          | succ j => exact hstrict j y (by omega) hj

/-- C7 counterexample: when the first record's consumption field is the
malformed string `abc` (NaN), the reduce keeps it forever — every comparison
against NaN is false — so `peakHour` returns the `abc` record even though the
collection contains a record with parsed consumption 5; the returned record
is not the record with maximum consumption (the spec treats invalid values as
0). -/
theorem claim_C7_counterexample :
    peakHour [⟨some "2025-06-01T00:00", some "abc", none, none, none⟩,
              ⟨some "2025-06-01T00:15", some "5", none, none, none⟩] =
      some ⟨some "2025-06-01T00:00", some "abc", none, none, none⟩ ∧
    hVal ⟨some "2025-06-01T00:00", some "abc", none, none, none⟩ = JF.nan ∧
    hVal ⟨some "2025-06-01T00:15", some "5", none, none, none⟩ = JF.num 5 := by
  refine ⟨by decide, by decide, jsParseFloat_5⟩

/-- C7 (amended): for every collection whose consumption fields all parse,
`peakHour` returns `none` exactly on empty input, and otherwise returns the
first record attaining the maximum parsed consumption: the result sits at an
index `i` of the list, every record's value is at most the result's, and
every record strictly before index `i` has a strictly smaller value.  A
malformed (NaN) record at the head is never displaced, breaking the claim on
unparsed collections (see the counterexample). -/
theorem claim_C7_peakHour (l : List HourlyRecord) (h : ∀ r ∈ l, hVal r ≠ JF.nan) :
    (peakHour l = none ↔ l = []) ∧
    (∀ m, peakHour l = some m →
      ∃ i, l.get? i = some m ∧
        (∀ j y, l.get? j = some y → (hVal y).toQ ≤ (hVal m).toQ) ∧
        (∀ j y, j < i → l.get? j = some y → (hVal y).toQ < (hVal m).toQ)) := by
  cases l with
  | nil =>
    refine ⟨by simp [peakHour], ?_⟩
    intro m hm
    simp [peakHour] at hm
  | cons x xs =>
    have hx : hVal x ≠ JF.nan := h x (List.mem_cons_self _ _)
    have hxs : ∀ r ∈ xs, hVal r ≠ JF.nan := fun r hr => h r (List.mem_cons_of_mem _ hr)
    refine ⟨by simp [peakHour], ?_⟩
    intro m hm
    have hfold : peakHour (x :: xs) =
        some (xs.foldl (fun mx item => if jsGtB (hVal item) (hVal mx) then item else mx) x) := by
      show some ((x :: xs).foldl _ x) = _
      rw [List.foldl_cons, ite_self]
    rw [hfold] at hm
    injection hm with hm2
    rcases peak_fold_spec xs x hxs hx with ⟨heq, hle⟩ | ⟨i, xx, hget, heq, hlt, hle, hstrict⟩
    · rw [heq] at hm2
      subst hm2
      refine ⟨0, rfl, ?_, ?_⟩
      · intro j y hj
        cases j with
        | zero =>
          injection hj with hy
          subst hy
          exact le_refl _
        | succ j => exact hle j y hj
      · intro j y hjlt hj
        exact absurd hjlt (Nat.not_lt_zero j)
    · rw [heq] at hm2
      subst hm2
      refine ⟨i + 1, by simpa using hget, ?_, ?_⟩
      · intro j y hj
        cases j with
        | zero =>
          injection hj with hy
          subst hy
          exact le_of_lt hlt
        | succ j => exact hle j y hj
      · intro j y hjlt hj
        cases j with
        | zero =>
          injection hj with hy
          subst hy
          exact hlt
        | succ j => exact hstrict j y (by omega) hj

/-- C7 witness: the claim's example — over consumptions [5, 9, 9] the first
record with value 9 is returned, and the amended statement holds at that
concrete input. -/
theorem claim_C7_peakHour_witness :
    peakHour [⟨some "2025-06-01T00:00", some "5", none, none, none⟩,
              ⟨some "2025-06-01T00:15", some "9", none, none, none⟩,
              ⟨some "2025-06-01T00:30", some "9", none, none, none⟩] =
      some ⟨some "2025-06-01T00:15", some "9", none, none, none⟩ ∧
    ((peakHour [⟨some "2025-06-01T00:00", some "5", none, none, none⟩,
                ⟨some "2025-06-01T00:15", some "9", none, none, none⟩,
                ⟨some "2025-06-01T00:30", some "9", none, none, none⟩] = none ↔
       ([⟨some "2025-06-01T00:00", some "5", none, none, none⟩,
         ⟨some "2025-06-01T00:15", some "9", none, none, none⟩,
         ⟨some "2025-06-01T00:30", some "9", none, none, none⟩] :
           List HourlyRecord) = []) ∧
     (∀ m, peakHour [⟨some "2025-06-01T00:00", some "5", none, none, none⟩,
                     ⟨some "2025-06-01T00:15", some "9", none, none, none⟩,
                     ⟨some "2025-06-01T00:30", some "9", none, none, none⟩] = some m →
       ∃ i, ([⟨some "2025-06-01T00:00", some "5", none, none, none⟩,
              ⟨some "2025-06-01T00:15", some "9", none, none, none⟩,
              ⟨some "2025-06-01T00:30", some "9", none, none, none⟩] :
                List HourlyRecord).get? i = some m ∧
         (∀ j y, ([⟨some "2025-06-01T00:00", some "5", none, none, none⟩,
                   ⟨some "2025-06-01T00:15", some "9", none, none, none⟩,
                   ⟨some "2025-06-01T00:30", some "9", none, none, none⟩] :
                     List HourlyRecord).get? j = some y →
            (hVal y).toQ ≤ (hVal m).toQ) ∧
         (∀ j y, j < i → ([⟨some "2025-06-01T00:00", some "5", none, none, none⟩,
                           ⟨some "2025-06-01T00:15", some "9", none, none, none⟩,
                           ⟨some "2025-06-01T00:30", some "9", none, none, none⟩] :
                             List HourlyRecord).get? j = some y →
            (hVal y).toQ < (hVal m).toQ))) := by
  constructor
  · have h5 : hVal ⟨some "2025-06-01T00:00", some "5", none, none, none⟩ = JF.num 5 :=
      jsParseFloat_5
    have h9a : hVal ⟨some "2025-06-01T00:15", some "9", none, none, none⟩ = JF.num 9 :=
      jsParseFloat_9
    have h9b : hVal ⟨some "2025-06-01T00:30", some "9", none, none, none⟩ = JF.num 9 :=
      jsParseFloat_9
    show some (List.foldl (fun mx item => if jsGtB (hVal item) (hVal mx) then item else mx)
      ⟨some "2025-06-01T00:00", some "5", none, none, none⟩
      [⟨some "2025-06-01T00:00", some "5", none, none, none⟩,
       ⟨some "2025-06-01T00:15", some "9", none, none, none⟩,
       ⟨some "2025-06-01T00:30", some "9", none, none, none⟩]) =
      some ⟨some "2025-06-01T00:15", some "9", none, none, none⟩
    have hgt95 : jsGtB (JF.num 9) (JF.num 5) = true := by
      show decide ((5 : ℚ) < 9) = true
      exact decide_eq_true (by norm_num)
    have hgt99 : jsGtB (JF.num 9) (JF.num 9) = false := by
      show decide ((9 : ℚ) < 9) = false
      exact decide_eq_false (lt_irrefl _)
    rw [List.foldl_cons, ite_self, List.foldl_cons, h9a, h5, hgt95,
      if_pos rfl, List.foldl_cons, List.foldl_nil, h9b, h9a, hgt99]
    simp
  · exact claim_C7_peakHour
      [⟨some "2025-06-01T00:00", some "5", none, none, none⟩,
       ⟨some "2025-06-01T00:15", some "9", none, none, none⟩,
       ⟨some "2025-06-01T00:30", some "9", none, none, none⟩] (by decide)

end EnergyDash
